import Mathlib

/-!
Verification development for the Sonic-Capture audio recorder (`src/script.js`).

The script is a single `DOMContentLoaded` closure holding mutable module state
(audio pipeline handles, chunk buffer, timer bookkeeping, the `isRecording` /
`isPaused` flags) and a set of event handlers (button clicks, the 1-second
timer tick, the animation frame, the recorder `onstop` callback).  We embed it
shallowly: the module variables and the DOM facts the handlers read or write
become fields of `AppState`; each handler becomes a pure function
`AppState → AppState`; the browser event loop becomes a step function over an
event alphabet.  Times are `Int` milliseconds (`Date.now()` values).

Modelling conventions:
* Object-valued variables (`audioContext`, `analyser`, `microphone`,
  `mediaRecorder`) are tracked by presence flags, since the script only ever
  tests them for definedness or calls methods on them.
* A JS `TypeError` escaping a handler (e.g. calling `.start()` on an
  undefined `mediaRecorder`) sets the `crashed` flag at the point the source
  line would throw; the rest of the handler does not run, and we freeze the
  state afterwards (we only use `crashed` as a terminal observation).
* Browser scheduling semantics: a click on a button whose `disabled`
  attribute is set delivers no event; a `setInterval` timer whose handle was
  passed to `clearInterval` never fires again; a `requestAnimationFrame`
  callback is one-shot and is not invoked after `cancelAnimationFrame`; the
  `MediaRecorder.onstop` callback fires as a separate task queued by
  `mediaRecorder.stop()`.
* Canvas painting is abstracted to a `canvasCleared` flag (the visualizer
  paints, `clearRect` clears); the pixel contents are irrelevant to every
  claim.  `audioContext.resume()` on a suspended context, `fftSize`, and the
  actual download anchor of the save handler touch nothing modelled here.
-/

namespace SonicCapture

set_option maxRecDepth 4096

/-- One candidate of the `types` array in `getSupportedMimeType`
(src/script.js lines 41-46): a MIME string and its file extension. -/
structure MimeCandidate where
  mime : String
  ext : String
  deriving DecidableEq

/-- The candidate list of `getSupportedMimeType`, in source order
(priority: AAC/MP4 first, WebM fallback). -/
def mimeTypes : List MimeCandidate :=
  [ ⟨"audio/mp4", "m4a"⟩,
    ⟨"audio/aac", "aac"⟩,
    ⟨"audio/webm;codecs=opus", "webm"⟩,
    ⟨"audio/webm", "webm"⟩ ]

/-- The `for (const type of types)` loop of `getSupportedMimeType`
(src/script.js lines 48-52): return the first candidate the environment
reports as supported. -/
def findSupported (isTypeSupported : String → Bool) :
    List MimeCandidate → Option MimeCandidate
  | [] => none
  | c :: rest =>
      if isTypeSupported c.mime then some c else findSupported isTypeSupported rest

/-- `getSupportedMimeType` (src/script.js lines 39-54).  The environment's
`MediaRecorder.isTypeSupported` is passed as a function parameter. -/
def getSupportedMimeType (isTypeSupported : String → Bool) : Option MimeCandidate :=
  findSupported isTypeSupported mimeTypes

/-- `MAX_RECORDING_TIME_MS = 60 * 60 * 1000` (src/script.js line 30). -/
def MAX_RECORDING_TIME_MS : Int := 60 * 60 * 1000

/-- The mutable state of the script: module variables plus the DOM facts the
handlers read or write.  Field comments name the source variables. -/
structure AppState where
  /-- `audioContext` is defined (line 12, assigned line 60). -/
  audioContextSet : Bool
  /-- `analyser` is defined (line 13, assigned line 61). -/
  analyserSet : Bool
  /-- `microphone` is defined (line 14, assigned line 62). -/
  microphoneSet : Bool
  /-- `mediaRecorder` is defined (line 15, assigned line 77). -/
  mediaRecorderSet : Bool
  /-- a `mediaRecorder.stop()` call has queued the `onstop` task that has
  not yet run. -/
  recorderStopPending : Bool
  /-- `chunks` (line 16); chunk payloads are abstracted to `Nat` ids. -/
  chunks : List Nat
  /-- the `Blob` assembled by `onstop` (line 84), as the chunk list it froze. -/
  artifact : Option (List Nat)
  /-- `selectedMimeType` (line 17). -/
  selectedMimeType : Option String
  /-- `selectedExtension` (line 18). -/
  selectedExtension : Option String
  /-- instrumentation: how many times `getSupportedMimeType` has run. -/
  negotiationCount : Nat
  /-- `startTime` (line 21). -/
  startTime : Int
  /-- the `timerInterval` handle (line 22) is live (set by `setInterval`,
  killed by `clearInterval`). -/
  timerActive : Bool
  /-- `elapsedPausedTime` (line 23). -/
  elapsedPausedTime : Int
  /-- `pauseStartTime` (line 24). -/
  pauseStartTime : Int
  /-- `isRecording` (line 26). -/
  isRecording : Bool
  /-- `isPaused` (line 27). -/
  isPaused : Bool
  /-- the `animationId` frame (line 28) is pending (set by
  `requestAnimationFrame`, killed by `cancelAnimationFrame` or delivery). -/
  vizScheduled : Bool
  /-- `recordBtn.disabled`. -/
  recordDisabled : Bool
  /-- `recordBtn` carries the `recording` CSS class. -/
  recordingClass : Bool
  /-- `pauseBtn.disabled`. -/
  pauseDisabled : Bool
  /-- `pauseBtn` carries the `paused` CSS class. -/
  pausedClass : Bool
  /-- the `<span>` label of `pauseBtn`. -/
  pauseLabel : String
  /-- `.icon-pause` has `display: block`. -/
  pauseIconShown : Bool
  /-- `.icon-play` has `display: block`. -/
  playIconShown : Bool
  /-- `stopBtn.disabled`. -/
  stopDisabled : Bool
  /-- `saveBtn.disabled`. -/
  saveDisabled : Bool
  /-- `resetBtn.disabled`. -/
  resetDisabled : Bool
  /-- `saveBtn.onclick` has been assigned (line 91). -/
  saveHandlerSet : Bool
  /-- `statusMessage.textContent`. -/
  statusMessage : String
  /-- `timeDisplay.textContent`. -/
  timeDisplay : String
  /-- the visualizer canvas holds no painted frame (`clearRect` state). -/
  canvasCleared : Bool
  /-- a JS exception escaped a handler (dereference of an undefined
  pipeline object). -/
  crashed : Bool
  deriving DecidableEq

/-- Modelled from the spec: the initial affordance/display configuration is
fixed by `index.html`, which is not under `src/`.  Per spec sections 4.5/8,
the record affordance starts enabled and pause/stop/save/reset start
disabled; the display starts at the ready message and `00:00`, matching what
`resetApp` restores. -/
def initialState : AppState where
  audioContextSet := false
  analyserSet := false
  microphoneSet := false
  mediaRecorderSet := false
  recorderStopPending := false
  chunks := []
  artifact := none
  selectedMimeType := none
  selectedExtension := none
  negotiationCount := 0
  startTime := 0
  timerActive := false
  elapsedPausedTime := 0
  pauseStartTime := 0
  isRecording := false
  isPaused := false
  vizScheduled := false
  recordDisabled := false
  recordingClass := false
  pauseDisabled := true
  pausedClass := false
  pauseLabel := "Pause"
  pauseIconShown := true
  playIconShown := false
  stopDisabled := true
  saveDisabled := true
  resetDisabled := true
  saveHandlerSet := false
  statusMessage := "Ready to record"
  timeDisplay := "00:00"
  canvasCleared := true
  crashed := false

/-- `setupAudio` (src/script.js lines 56-110).  `micOk` is whether
`getUserMedia` resolves (permission granted and a mic exists); when it
rejects, the `catch` block runs before any assignment.  On success the
pipeline objects are assigned first (lines 60-63) and only then is the
encoding negotiated (line 67); a `null` result returns `false` with those
assignments already made.  Returns the JS boolean together with the state. -/
def setupAudio (micOk : Bool) (isTypeSupported : String → Bool) (s : AppState) :
    Bool × AppState :=
  if micOk = false then
    (false, { s with statusMessage := "Error: Additional permissions needed or mic not found." })
  else
    let s1 := { s with
      audioContextSet := true
      analyserSet := true
      microphoneSet := true
      negotiationCount := s.negotiationCount + 1 }
    match getSupportedMimeType isTypeSupported with
    | none =>
        (false, { s1 with statusMessage := "Error: No supported audio format found." })
    | some c =>
        (true, { s1 with
          selectedMimeType := some c.mime
          selectedExtension := some c.ext
          mediaRecorderSet := true })

/-- `drawVisualizer` (src/script.js lines 112-142): bail out unless recording
and unpaused (line 113); otherwise request the next frame (line 115), then
sample the analyser and paint the bars.  Reading `analyser.frequencyBinCount`
on an undefined analyser would throw. -/
def drawVisualizer (s : AppState) : AppState :=
  if !s.isRecording || s.isPaused then s
  else
    let s1 := { s with vizScheduled := true }
    if s1.analyserSet = false then { s1 with crashed := true }
    else { s1 with canvasCleared := false }

/-- `stopRecording` (src/script.js lines 162-186): guarded by `isRecording`
(line 163); stops the recorder (queuing its `onstop` task), clears the flags,
kills the interval and the pending frame, resets the buttons and clears the
canvas.  `mediaRecorder.stop()` on an undefined recorder would throw. -/
def stopRecording (s : AppState) : AppState :=
  if s.isRecording = false then s
  else if s.mediaRecorderSet = false then { s with crashed := true }
  else
    { s with
      recorderStopPending := true
      isRecording := false
      isPaused := false
      timerActive := false
      vizScheduled := false
      recordingClass := false
      recordDisabled := false
      pauseDisabled := true
      pausedClass := false
      pauseIconShown := true
      playIconShown := false
      pauseLabel := "Pause"
      stopDisabled := true
      canvasCleared := true }

/-- `str.padStart(2, '0')` as used on lines 157-158. -/
def padStart2 (str : String) : String :=
  String.mk (List.replicate (2 - str.length) '0') ++ str

/-- The mm:ss rendering of lines 156-159: `Math.floor` is flooring division,
JS `%` is the truncating remainder. -/
def fmtClock (totalElapsed : Int) : String :=
  let totalSeconds := Int.fdiv totalElapsed 1000
  let minutes := padStart2 (toString (Int.fdiv totalSeconds 60))
  let seconds := padStart2 (toString (Int.tmod totalSeconds 60))
  minutes ++ ":" ++ seconds

/-- `updateTimer` (src/script.js lines 144-160): no-op while paused
(line 145); otherwise compute `now - startTime - elapsedPausedTime`; at or
past the 60-minute limit call `stopRecording` and set the auto-stop message
(so the exception of a failed stop would skip the message line); otherwise
render the elapsed display. -/
def updateTimer (now : Int) (s : AppState) : AppState :=
  if s.isPaused = true then s
  else
    let totalElapsed := now - s.startTime - s.elapsedPausedTime
    if MAX_RECORDING_TIME_MS ≤ totalElapsed then
      let s1 := stopRecording s
      if s1.crashed = true then s1
      else { s1 with statusMessage := "Recording auto-stopped (60m limit reached)." }
    else
      { s with timeDisplay := fmtClock totalElapsed }

/-- `resetApp` (src/script.js lines 188-202): unconditionally clear the chunk
buffer, the paused-time accumulator and the displays, disable save/reset,
defensively stop if somehow recording, and clear the canvas (skipped if the
defensive stop threw). -/
def resetApp (s : AppState) : AppState :=
  let s1 := { s with
    chunks := []
    elapsedPausedTime := 0
    timeDisplay := "00:00"
    statusMessage := "Ready to record"
    saveDisabled := true
    resetDisabled := true }
  let s2 := if s1.isRecording = true then stopRecording s1 else s1
  if s2.crashed = true then s2 else { s2 with canvasCleared := true }

/-- The tail of the `recordBtn` click handler (src/script.js lines
214-229), run once setup has not failed: `mediaRecorder.start()` (which
throws if the recorder is undefined), the flag and timer initialisation,
the affordance updates, and the first `drawVisualizer()` call. -/
def startRecording (t : Int) (s1 : AppState) : AppState :=
  if s1.mediaRecorderSet = false then { s1 with crashed := true }
  else
    let s2 := { s1 with
      isRecording := true
      isPaused := false
      startTime := t
      elapsedPausedTime := 0
      timerActive := true
      recordingClass := true
      recordDisabled := true
      pauseDisabled := false
      stopDisabled := false
      saveDisabled := true
      resetDisabled := true
      statusMessage := "Recording in progress..." }
    drawVisualizer s2

/-- The `recordBtn` click handler (src/script.js lines 204-230): guarded by
`isRecording`; runs `setupAudio` only when `audioContext` is undefined and
returns early if it reported failure (`audioContext.resume()` on a
suspended context touches only the audio graph, nothing modelled here);
then proceeds to `startRecording`. -/
def recordClickHandler (micOk : Bool) (isTypeSupported : String → Bool)
    (t : Int) (s : AppState) : AppState :=
  if s.isRecording = true then s
  else if s.audioContextSet = false then
    match setupAudio micOk isTypeSupported s with
    | (false, s1) => s1
    | (true, s1) => startRecording t s1
  else startRecording t s

/-- The `pauseBtn` click handler (src/script.js lines 232-273): guarded by
`isRecording`; resumes when paused (adding `Date.now() - pauseStartTime` to
`elapsedPausedTime` and restarting the visualizer), pauses otherwise
(recording `pauseStartTime` and cancelling the pending frame).
`mediaRecorder.resume()` / `.pause()` on an undefined recorder would throw
before the flag updates. -/
def pauseClickHandler (t : Int) (s : AppState) : AppState :=
  if s.isRecording = false then s
  else if s.isPaused = true then
    if s.mediaRecorderSet = false then { s with crashed := true }
    else
      let s1 := { s with isPaused := false }
      let pauseDuration := t - s1.pauseStartTime
      let s2 := { s1 with
        elapsedPausedTime := s1.elapsedPausedTime + pauseDuration
        pausedClass := false
        pauseIconShown := true
        playIconShown := false
        pauseLabel := "Pause"
        statusMessage := "Recording resumed..." }
      drawVisualizer s2
  else
    if s.mediaRecorderSet = false then { s with crashed := true }
    else
      { s with
        isPaused := true
        pauseStartTime := t
        pausedClass := true
        pauseIconShown := false
        playIconShown := true
        pauseLabel := "Resume"
        statusMessage := "Recording paused."
        vizScheduled := false }

/-- The `mediaRecorder.onstop` callback (src/script.js lines 83-102):
assemble the blob from the buffered chunks, clear the buffer, enable save
and reset, install the save click handler, and set the finished message. -/
def onstopHandler (s : AppState) : AppState :=
  { s with
    artifact := some s.chunks
    chunks := []
    saveDisabled := false
    resetDisabled := false
    saveHandlerSet := true
    statusMessage := "Recording finished. Ready to save or reset." }

/-- The `saveBtn.onclick` handler (src/script.js lines 91-99): triggers the
download anchor (external to the model) and sets the saved message.  A click
before any assignment of `onclick` does nothing. -/
def saveClickHandler (s : AppState) : AppState :=
  if s.saveHandlerSet = false then s
  else { s with statusMessage := "Recording saved!" }

/-- The event alphabet of the embedded event loop. -/
inductive EKind where
  /-- click on `recordBtn`; `micOk` is whether `getUserMedia` would resolve. -/
  | recordClick (micOk : Bool)
  /-- click on `pauseBtn`. -/
  | pauseClick
  /-- click on `stopBtn`. -/
  | stopClick
  /-- click on `saveBtn`. -/
  | saveClick
  /-- click on `resetBtn`. -/
  | resetClick
  /-- the `setInterval` tick running `updateTimer`. -/
  | tick
  /-- delivery of the pending `requestAnimationFrame` callback. -/
  | vizFrame
  /-- delivery of the queued `mediaRecorder.onstop` task. -/
  | recorderStop
  /-- a `dataavailable` event carrying one chunk. -/
  | dataAvailable (chunk : Nat)
  deriving DecidableEq

/-- A timestamped event: `t` is the `Date.now()` value at delivery. -/
structure TEvent where
  t : Int
  k : EKind
  deriving DecidableEq

/-- One step of the browser event loop.  Clicks on disabled buttons deliver
nothing; a cleared interval and a cancelled (or consumed) animation frame
never fire; the `onstop` task fires once per queued stop.  After an escaped
exception we freeze the state. -/
def step (isTypeSupported : String → Bool) (s : AppState) (t : Int)
    (k : EKind) : AppState :=
  if s.crashed = true then s
  else
    match k with
    | .recordClick micOk =>
        if s.recordDisabled = true then s
        else recordClickHandler micOk isTypeSupported t s
    | .pauseClick =>
        if s.pauseDisabled = true then s else pauseClickHandler t s
    | .stopClick =>
        if s.stopDisabled = true then s else stopRecording s
    | .saveClick =>
        if s.saveDisabled = true then s else saveClickHandler s
    | .resetClick =>
        if s.resetDisabled = true then s else resetApp s
    | .tick =>
        if s.timerActive = true then updateTimer t s else s
    | .vizFrame =>
        if s.vizScheduled = true then drawVisualizer { s with vizScheduled := false }
        else s
    | .recorderStop =>
        if s.recorderStopPending = true then
          onstopHandler { s with recorderStopPending := false }
        else s
    | .dataAvailable c =>
        if s.mediaRecorderSet = true then { s with chunks := s.chunks ++ [c] }
        else s

/-- Run a list of timestamped events from a state. -/
def run (isTypeSupported : String → Bool) (s : AppState) :
    List TEvent → AppState
  | [] => s
  | e :: es => run isTypeSupported (step isTypeSupported s e.t e.k) es

/-- The events are delivered in chronological order starting no earlier
than `t`. -/
def chrono (t : Int) : List TEvent → Bool
  | [] => true
  | e :: es => decide (t ≤ e.t) && chrono e.t es

/-- The delivery time of the last event (or `t` for the empty list). -/
def endTime (t : Int) : List TEvent → Int
  | [] => t
  | e :: es => endTime e.t es

/-- `isRecording` holds after every step of the trace. -/
def staysRecording (isTypeSupported : String → Bool) (s : AppState) :
    List TEvent → Bool
  | [] => true
  | e :: es =>
      (step isTypeSupported s e.t e.k).isRecording
        && staysRecording isTypeSupported (step isTypeSupported s e.t e.k) es

/-- Net elapsed recording time at instant `now`: the quantity `totalElapsed`
computed by `updateTimer` (src/script.js line 148). -/
def netElapsed (s : AppState) (now : Int) : Int :=
  now - s.startTime - s.elapsedPausedTime

/-- Spec-side view (spec section 3, ElapsedAccounting): the optional
pause-start instant, present only while paused. -/
def currentPauseStart (s : AppState) : Option Int :=
  if s.isPaused = true then some s.pauseStartTime else none

/-- The value of net elapsed time as last observable before the next event:
while paused it is frozen at the pause instant, otherwise it grows with the
current time.  Used to express monotonicity across pause/resume pairs. -/
def obsElapsed (s : AppState) (t : Int) : Int :=
  if s.isPaused = true then s.pauseStartTime - s.startTime - s.elapsedPausedTime
  else t - s.startTime - s.elapsedPausedTime

/-- The timing invariant carried by every reachable state at current time
`t`: the interval only runs during a session; the paused-time accumulator is
non-negative; and the elapsed-time origin `startTime + elapsedPausedTime`
lies in the past (bounded by the pause instant while paused). -/
def ClockInv (s : AppState) (t : Int) : Prop :=
  (s.timerActive = true → s.isRecording = true)
  ∧ 0 ≤ s.elapsedPausedTime
  ∧ (s.isRecording = true → s.isPaused = false →
      s.startTime + s.elapsedPausedTime ≤ t)
  ∧ (s.isRecording = true → s.isPaused = true →
      s.startTime + s.elapsedPausedTime ≤ s.pauseStartTime ∧ s.pauseStartTime ≤ t)

/-- A capability environment supporting every candidate. -/
def supAll : String → Bool := fun _ => true

/-- A capability environment supporting no candidate. -/
def supNone : String → Bool := fun _ => false

/-- A concrete recording state: one record click at time 0. -/
def sRec : AppState :=
  run supAll initialState [⟨0, .recordClick true⟩]

/-- A concrete paused state: record at 0, pause at 2. -/
def sPausedState : AppState :=
  run supAll initialState [⟨0, .recordClick true⟩, ⟨2, .pauseClick⟩]

/-- A concrete stopped state: record at 0, stop at 5, `onstop` delivered. -/
def sStopped : AppState :=
  run supAll initialState
    [⟨0, .recordClick true⟩, ⟨5, .stopClick⟩, ⟨5, .recorderStop⟩]

/-- State of the re-entrancy-aware refinement of the record-click flow.
The click handler (src/script.js line 204) is `async`: it suspends at
`await setupAudio()` (line 208), i.e. at the
`await navigator.mediaDevices.getUserMedia(...)` inside `setupAudio`
(line 58), and only code *after* that await disables the record button
(line 222) or assigns `audioContext` (line 60).  So while a microphone
request is outstanding, further clicks are deliverable, pass the
`isRecording` guard (line 205) and the `!audioContext` test (line 207),
and start their own `setupAudio` call.  The refinement tracks the page
state together with the number of handler activations currently suspended
at that await.  As in `AppState`, the interval and frame handles are
single booleans: when an overlapping activation starts the session again,
the source overwrites the handle variables and the model likewise keeps
only the latest. -/
structure AsyncState where
  /-- the page state. -/
  app : AppState
  /-- activations suspended at the `getUserMedia` await (line 58). -/
  pendingMicRequests : Nat
  deriving DecidableEq

/-- The initial page state with no outstanding microphone request. -/
def asyncInit : AsyncState := ⟨initialState, 0⟩

/-- The part of the record-click handler that runs synchronously at click
time (src/script.js lines 204-208): the `isRecording` guard, then — when
`audioContext` is unset — the call into `setupAudio` up to its
`getUserMedia` await, which mutates nothing and leaves one more request
outstanding.  When the context is already set the handler continues (past
the `audioContext.resume()` branch, which touches nothing modelled) to
`startRecording`.  A click on a disabled button delivers nothing and a
crashed state is frozen, as in `step`. -/
def recordClickSync (t : Int) (s : AsyncState) : AsyncState :=
  if s.app.crashed = true then s
  else if s.app.recordDisabled = true then s
  else if s.app.isRecording = true then s
  else if s.app.audioContextSet = false then
    { s with pendingMicRequests := s.pendingMicRequests + 1 }
  else
    { s with app := startRecording t s.app }

/-- The continuation of one suspended activation once its `getUserMedia`
promise settles at time `t`: the remainder of `setupAudio` (lines 60-109 —
pipeline assignments, the negotiation, recorder creation, or the `catch`
block when the request rejects) followed, on success, by the remainder of
the click handler (lines 214-229, `startRecording`).  The source re-checks
neither `isRecording` nor `audioContext` after the await. -/
def micContinuation (micOk : Bool) (isTypeSupported : String → Bool)
    (t : Int) (s : AppState) : AppState :=
  match setupAudio micOk isTypeSupported s with
  | (false, s1) => s1
  | (true, s1) => startRecording t s1

/-- Events of the refined model: a record click, the settlement of one
outstanding `getUserMedia` request, or any other (synchronous) handler of
the original alphabet. -/
inductive REvent where
  /-- a click on the record button at time `t`. -/
  | click (t : Int)
  /-- one outstanding `getUserMedia` request settles at time `t`;
  `micOk` tells whether it resolved (granted) or rejected. -/
  | micSettled (micOk : Bool) (t : Int)
  /-- any other event, handled by the synchronous `step`. -/
  | sync (t : Int) (k : EKind)
  deriving DecidableEq

/-- One step of the refined event loop.  A settlement runs the suspended
activation's continuation to completion; finer microtask interleavings of
two overlapping activations only reorder the same negotiations.  A `sync`
record click is routed through the refined click path (its `micOk` payload
belongs to the later settlement and is ignored at click time). -/
def rStep (isTypeSupported : String → Bool) (s : AsyncState) :
    REvent → AsyncState
  | .click t => recordClickSync t s
  | .micSettled micOk t =>
      if s.app.crashed = true then s
      else if s.pendingMicRequests = 0 then s
      else
        { app := micContinuation micOk isTypeSupported t s.app
          pendingMicRequests := s.pendingMicRequests - 1 }
  | .sync t k =>
      match k with
      | .recordClick _ => recordClickSync t s
      | _ => { s with app := step isTypeSupported s.app t k }

/-- Run a list of refined events. -/
def rRun (isTypeSupported : String → Bool) (s : AsyncState) :
    List REvent → AsyncState
  | [] => s
  | e :: es => rRun isTypeSupported (rStep isTypeSupported s e) es

/-- The number of record clicks in a refined trace. -/
def countRecordClicks : List REvent → Nat
  | [] => 0
  | .click _ :: es => countRecordClicks es + 1
  | .sync _ (.recordClick _) :: es => countRecordClicks es + 1
  | _ :: es => countRecordClicks es

/-- A concrete refined state whose capture context exists: one record
click whose microphone request settled successfully. -/
def sAsyncReady : AsyncState :=
  rRun supAll asyncInit [.click 0, .micSettled true 0]

/-- Fields `drawVisualizer` never changes (it only touches the pending
frame, the canvas and possibly the crash flag). -/
lemma drawVisualizer_frame (s : AppState) :
    (drawVisualizer s).timerActive = s.timerActive
    ∧ (drawVisualizer s).isRecording = s.isRecording
    ∧ (drawVisualizer s).isPaused = s.isPaused
    ∧ (drawVisualizer s).startTime = s.startTime
    ∧ (drawVisualizer s).elapsedPausedTime = s.elapsedPausedTime
    ∧ (drawVisualizer s).pauseStartTime = s.pauseStartTime
    ∧ (drawVisualizer s).audioContextSet = s.audioContextSet
    ∧ (drawVisualizer s).negotiationCount = s.negotiationCount
    ∧ (drawVisualizer s).selectedMimeType = s.selectedMimeType
    ∧ (drawVisualizer s).selectedExtension = s.selectedExtension
    ∧ (drawVisualizer s).mediaRecorderSet = s.mediaRecorderSet
    ∧ (drawVisualizer s).chunks = s.chunks
    ∧ (drawVisualizer s).statusMessage = s.statusMessage
    ∧ (drawVisualizer s).timeDisplay = s.timeDisplay := by
  unfold drawVisualizer
  (repeat' split) <;> simp [apply_ite]

/-- Fields both outcomes of `setupAudio` leave unchanged. -/
lemma setupAudio_frame (micOk : Bool) (sup : String → Bool) (s : AppState) :
    (setupAudio micOk sup s).2.timerActive = s.timerActive
    ∧ (setupAudio micOk sup s).2.isRecording = s.isRecording
    ∧ (setupAudio micOk sup s).2.isPaused = s.isPaused
    ∧ (setupAudio micOk sup s).2.startTime = s.startTime
    ∧ (setupAudio micOk sup s).2.elapsedPausedTime = s.elapsedPausedTime
    ∧ (setupAudio micOk sup s).2.pauseStartTime = s.pauseStartTime
    ∧ (setupAudio micOk sup s).2.chunks = s.chunks
    ∧ (setupAudio micOk sup s).2.recorderStopPending = s.recorderStopPending
    ∧ (setupAudio micOk sup s).2.saveHandlerSet = s.saveHandlerSet
    ∧ (setupAudio micOk sup s).2.timeDisplay = s.timeDisplay
    ∧ (setupAudio micOk sup s).2.crashed = s.crashed := by
  unfold setupAudio
  (repeat' split) <;> simp [apply_ite]

/-- Fields `startRecording` never changes. -/
lemma startRecording_frame (t : Int) (s1 : AppState) :
    (startRecording t s1).audioContextSet = s1.audioContextSet
    ∧ (startRecording t s1).negotiationCount = s1.negotiationCount
    ∧ (startRecording t s1).analyserSet = s1.analyserSet
    ∧ (startRecording t s1).microphoneSet = s1.microphoneSet
    ∧ (startRecording t s1).mediaRecorderSet = s1.mediaRecorderSet
    ∧ (startRecording t s1).recorderStopPending = s1.recorderStopPending
    ∧ (startRecording t s1).chunks = s1.chunks
    ∧ (startRecording t s1).artifact = s1.artifact
    ∧ (startRecording t s1).selectedMimeType = s1.selectedMimeType
    ∧ (startRecording t s1).selectedExtension = s1.selectedExtension
    ∧ (startRecording t s1).pauseStartTime = s1.pauseStartTime
    ∧ (startRecording t s1).saveHandlerSet = s1.saveHandlerSet
    ∧ (startRecording t s1).timeDisplay = s1.timeDisplay := by
  unfold startRecording drawVisualizer
  (repeat' split) <;> simp [apply_ite]

/-- Fields `stopRecording` never changes. -/
lemma stopRecording_frame (s : AppState) :
    (stopRecording s).audioContextSet = s.audioContextSet
    ∧ (stopRecording s).negotiationCount = s.negotiationCount
    ∧ (stopRecording s).startTime = s.startTime
    ∧ (stopRecording s).elapsedPausedTime = s.elapsedPausedTime
    ∧ (stopRecording s).pauseStartTime = s.pauseStartTime
    ∧ (stopRecording s).analyserSet = s.analyserSet
    ∧ (stopRecording s).microphoneSet = s.microphoneSet
    ∧ (stopRecording s).mediaRecorderSet = s.mediaRecorderSet
    ∧ (stopRecording s).chunks = s.chunks
    ∧ (stopRecording s).artifact = s.artifact
    ∧ (stopRecording s).selectedMimeType = s.selectedMimeType
    ∧ (stopRecording s).selectedExtension = s.selectedExtension
    ∧ (stopRecording s).saveDisabled = s.saveDisabled
    ∧ (stopRecording s).resetDisabled = s.resetDisabled
    ∧ (stopRecording s).saveHandlerSet = s.saveHandlerSet
    ∧ (stopRecording s).statusMessage = s.statusMessage
    ∧ (stopRecording s).timeDisplay = s.timeDisplay := by
  unfold stopRecording
  (repeat' split) <;> simp [apply_ite]

/-- Fields `updateTimer` never changes. -/
lemma updateTimer_frame (now : Int) (s : AppState) :
    (updateTimer now s).audioContextSet = s.audioContextSet
    ∧ (updateTimer now s).negotiationCount = s.negotiationCount
    ∧ (updateTimer now s).startTime = s.startTime
    ∧ (updateTimer now s).elapsedPausedTime = s.elapsedPausedTime
    ∧ (updateTimer now s).pauseStartTime = s.pauseStartTime
    ∧ (updateTimer now s).mediaRecorderSet = s.mediaRecorderSet
    ∧ (updateTimer now s).chunks = s.chunks
    ∧ (updateTimer now s).artifact = s.artifact
    ∧ (updateTimer now s).selectedMimeType = s.selectedMimeType
    ∧ (updateTimer now s).selectedExtension = s.selectedExtension
    ∧ (updateTimer now s).saveDisabled = s.saveDisabled
    ∧ (updateTimer now s).resetDisabled = s.resetDisabled
    ∧ (updateTimer now s).saveHandlerSet = s.saveHandlerSet := by
  unfold updateTimer
  (repeat' split) <;> simp [stopRecording_frame, apply_ite]

/-- Fields the `pauseBtn` click handler never changes. -/
lemma pauseClickHandler_frame (t : Int) (s : AppState) :
    (pauseClickHandler t s).timerActive = s.timerActive
    ∧ (pauseClickHandler t s).audioContextSet = s.audioContextSet
    ∧ (pauseClickHandler t s).negotiationCount = s.negotiationCount
    ∧ (pauseClickHandler t s).startTime = s.startTime
    ∧ (pauseClickHandler t s).isRecording = s.isRecording
    ∧ (pauseClickHandler t s).mediaRecorderSet = s.mediaRecorderSet
    ∧ (pauseClickHandler t s).recorderStopPending = s.recorderStopPending
    ∧ (pauseClickHandler t s).chunks = s.chunks
    ∧ (pauseClickHandler t s).artifact = s.artifact
    ∧ (pauseClickHandler t s).selectedMimeType = s.selectedMimeType
    ∧ (pauseClickHandler t s).selectedExtension = s.selectedExtension
    ∧ (pauseClickHandler t s).recordDisabled = s.recordDisabled
    ∧ (pauseClickHandler t s).pauseDisabled = s.pauseDisabled
    ∧ (pauseClickHandler t s).stopDisabled = s.stopDisabled
    ∧ (pauseClickHandler t s).saveDisabled = s.saveDisabled
    ∧ (pauseClickHandler t s).resetDisabled = s.resetDisabled
    ∧ (pauseClickHandler t s).saveHandlerSet = s.saveHandlerSet
    ∧ (pauseClickHandler t s).timeDisplay = s.timeDisplay := by
  simp only [pauseClickHandler, drawVisualizer]
  (repeat' split) <;> simp

/-- Fields `resetApp` never changes. -/
lemma resetApp_frame (s : AppState) :
    (resetApp s).audioContextSet = s.audioContextSet
    ∧ (resetApp s).negotiationCount = s.negotiationCount
    ∧ (resetApp s).startTime = s.startTime
    ∧ (resetApp s).pauseStartTime = s.pauseStartTime
    ∧ (resetApp s).mediaRecorderSet = s.mediaRecorderSet
    ∧ (resetApp s).artifact = s.artifact
    ∧ (resetApp s).selectedMimeType = s.selectedMimeType
    ∧ (resetApp s).selectedExtension = s.selectedExtension
    ∧ (resetApp s).saveHandlerSet = s.saveHandlerSet := by
  simp only [resetApp]
  (repeat' split) <;> simp [stopRecording_frame, apply_ite]

/-- Fields the `onstop` callback never changes. -/
lemma onstopHandler_frame (s : AppState) :
    (onstopHandler s).timerActive = s.timerActive
    ∧ (onstopHandler s).isRecording = s.isRecording
    ∧ (onstopHandler s).isPaused = s.isPaused
    ∧ (onstopHandler s).startTime = s.startTime
    ∧ (onstopHandler s).elapsedPausedTime = s.elapsedPausedTime
    ∧ (onstopHandler s).pauseStartTime = s.pauseStartTime
    ∧ (onstopHandler s).audioContextSet = s.audioContextSet
    ∧ (onstopHandler s).negotiationCount = s.negotiationCount
    ∧ (onstopHandler s).selectedMimeType = s.selectedMimeType
    ∧ (onstopHandler s).selectedExtension = s.selectedExtension
    ∧ (onstopHandler s).timeDisplay = s.timeDisplay
    ∧ (onstopHandler s).crashed = s.crashed := by
  unfold onstopHandler
  simp

/-- Fields the save click handler never changes. -/
lemma saveClickHandler_frame (s : AppState) :
    (saveClickHandler s).timerActive = s.timerActive
    ∧ (saveClickHandler s).isRecording = s.isRecording
    ∧ (saveClickHandler s).isPaused = s.isPaused
    ∧ (saveClickHandler s).startTime = s.startTime
    ∧ (saveClickHandler s).elapsedPausedTime = s.elapsedPausedTime
    ∧ (saveClickHandler s).pauseStartTime = s.pauseStartTime
    ∧ (saveClickHandler s).audioContextSet = s.audioContextSet
    ∧ (saveClickHandler s).negotiationCount = s.negotiationCount
    ∧ (saveClickHandler s).crashed = s.crashed := by
  unfold saveClickHandler
  (repeat' split) <;> simp [apply_ite]

/-- The candidate loop of `getSupportedMimeType` is `List.find?` of the
support predicate. -/
lemma findSupported_eq_find? (sup : String → Bool) (l : List MimeCandidate) :
    findSupported sup l = l.find? (fun c => sup c.mime) := by
  induction l with
  | nil => rfl
  | cons c rest ih =>
      unfold findSupported
      cases h : sup c.mime <;> simp [List.find?_cons, h, ih]

/-- The candidate loop returns `none` exactly when no candidate is
supported. -/
lemma findSupported_eq_none (sup : String → Bool) (l : List MimeCandidate) :
    findSupported sup l = none ↔ ∀ c ∈ l, sup c.mime = false := by
  induction l with
  | nil => simp [findSupported]
  | cons c rest ih =>
      unfold findSupported
      cases h : sup c.mime <;> simp [h, ih]

/-- C7: `getSupportedMimeType` iterates the candidate descriptors in their
given priority order and returns the first one the environment reports as
supported (with its file suffix, since the whole descriptor is returned);
it returns `none` if and only if no candidate is supported.  It is a pure
function of the environment's capability responses, hence a deterministic
query. -/
theorem c7_select_encoding (sup : String → Bool) :
    getSupportedMimeType sup = mimeTypes.find? (fun c => sup c.mime)
    ∧ (getSupportedMimeType sup = none ↔ ∀ c ∈ mimeTypes, sup c.mime = false) :=
  ⟨findSupported_eq_find? sup mimeTypes, findSupported_eq_none sup mimeTypes⟩

/-- C6: any invocation of the visualizer frame in a state that is not
unpaused recording — including a dangling invocation delivered after the
pending frame was cancelled — returns the state unchanged: nothing is
rendered, no state is mutated, and no next frame is requested.  The guard
is re-evaluated on the state at entry, i.e. on every re-entry. -/
theorem c6_visualizer_guard (s : AppState)
    (h : s.isRecording = false ∨ s.isPaused = true) :
    drawVisualizer s = s := by
  unfold drawVisualizer
  rcases h with h | h <;> simp [h]

/-- Witness for C6 at the initial (idle) state. -/
theorem c6_witness : drawVisualizer initialState = initialState :=
  c6_visualizer_guard initialState (Or.inl rfl)

/-- C2 as amended: a pause or stop request while not recording and not
paused is a complete no-op, as is a record request while recording or
paused, and save/reset clicks are not even delivered while their buttons
are disabled; none of these crash.  (The original claim fails for a record
request arriving in `Stopped`: see the counterexample.) -/
theorem c2_invalid_requests_ignored (sup : String → Bool) (s : AppState) (t : Int) :
    (s.isRecording = false → step sup s t .pauseClick = s)
    ∧ (s.isRecording = false → step sup s t .stopClick = s)
    ∧ (∀ micOk, s.isRecording = true → step sup s t (.recordClick micOk) = s)
    ∧ (s.saveDisabled = true → step sup s t .saveClick = s)
    ∧ (s.resetDisabled = true → step sup s t .resetClick = s) := by
  refine ⟨fun h => ?_, fun h => ?_, fun micOk h => ?_, fun h => ?_, fun h => ?_⟩ <;>
    unfold step <;>
    by_cases hc : s.crashed = true <;>
    simp [hc, h, pauseClickHandler, stopRecording, recordClickHandler]

/-- Witness for C2 (amended) at the initial state and a recording state. -/
theorem c2_witness :
    step supAll initialState 3 .pauseClick = initialState
    ∧ step supAll initialState 3 .stopClick = initialState
    ∧ step supAll initialState 3 .saveClick = initialState
    ∧ step supAll initialState 3 .resetClick = initialState
    ∧ step supAll sRec 3 (.recordClick true) = sRec := by
  have h0 := c2_invalid_requests_ignored supAll initialState 3
  have h1 := c2_invalid_requests_ignored supAll sRec 3
  exact ⟨h0.1 rfl, h0.2.1 rfl, h0.2.2.2.1 rfl, h0.2.2.2.2 rfl,
    h1.2.2.1 true (by decide)⟩

/-- Counterexample to C2 as stated: `sStopped` is a reachable `Stopped`
state (not recording, finished message shown, save/reset enabled), so a
record request is outside its valid state (`Idle`) there, yet the click is
not ignored: the record affordance was re-enabled on stopping and the click
starts a new recording session, changing state, affordances and display. -/
theorem c2_counterexample :
    sStopped.isRecording = false
    ∧ sStopped.statusMessage = "Recording finished. Ready to save or reset."
    ∧ sStopped.saveDisabled = false
    ∧ sStopped.recordDisabled = false
    ∧ (step supAll sStopped 6 (.recordClick true)).isRecording = true
    ∧ step supAll sStopped 6 (.recordClick true) ≠ sStopped := by
  refine ⟨rfl, rfl, rfl, rfl, rfl, ?_⟩
  decide

/-- C9: a reset delivered in a stopped state (not recording, record button
re-enabled, reset button enabled, no escaped exception) restores the exact
initial configuration — empty chunk buffer, zero cumulative paused time,
`00:00` display, ready message, record enabled, save and reset disabled,
cleared display surface — regardless of the prior history (in particular of
how many pause/resume cycles occurred before stopping, since the state `s`
is arbitrary). -/
theorem c9_reset_restores_initial (sup : String → Bool) (s : AppState) (t : Int)
    (hcr : s.crashed = false) (hrec : s.isRecording = false)
    (hrd : s.recordDisabled = false) (hres : s.resetDisabled = false) :
    (step sup s t .resetClick).chunks = []
    ∧ (step sup s t .resetClick).elapsedPausedTime = 0
    ∧ (step sup s t .resetClick).timeDisplay = "00:00"
    ∧ (step sup s t .resetClick).statusMessage = "Ready to record"
    ∧ (step sup s t .resetClick).recordDisabled = false
    ∧ (step sup s t .resetClick).saveDisabled = true
    ∧ (step sup s t .resetClick).resetDisabled = true
    ∧ (step sup s t .resetClick).canvasCleared = true := by
  unfold step resetApp
  simp [hcr, hrec, hrd, hres]

/-- Witness for C9 at the concrete stopped state. -/
theorem c9_witness :
    (step supAll sStopped 7 .resetClick).elapsedPausedTime = 0
    ∧ (step supAll sStopped 7 .resetClick).timeDisplay = "00:00"
    ∧ (step supAll sStopped 7 .resetClick).statusMessage = "Ready to record"
    ∧ (step supAll sStopped 7 .resetClick).recordDisabled = false
    ∧ (step supAll sStopped 7 .resetClick).saveDisabled = true
    ∧ (step supAll sStopped 7 .resetClick).resetDisabled = true := by
  have h := c9_reset_restores_initial supAll sStopped 7 rfl rfl rfl rfl
  exact ⟨h.2.1, h.2.2.1, h.2.2.2.1, h.2.2.2.2.1, h.2.2.2.2.2.1, h.2.2.2.2.2.2.1⟩

/-- C1 at its failing input: a first record click in an environment where
the microphone is granted but no candidate encoding is supported leaves the
audio context, analyser and microphone source initialised (partial state IS
retained, contradicting the claim and spec section 4.2), and a second
record click therefore skips `setupAudio` and throws a `TypeError` at
`mediaRecorder.start()` instead of behaving like a first attempt.  The
permission-denied half of the claim does hold: that failure retains
nothing beyond the error message. -/
theorem c1_noencoding_partial_state_bug :
    (step supNone initialState 0 (.recordClick true)).audioContextSet = true
    ∧ (step supNone initialState 0 (.recordClick true)).analyserSet = true
    ∧ (step supNone initialState 0 (.recordClick true)).microphoneSet = true
    ∧ (step supNone initialState 0 (.recordClick true)).isRecording = false
    ∧ (step supNone initialState 0 (.recordClick true)).statusMessage
        = "Error: No supported audio format found."
    ∧ (step supNone (step supNone initialState 0 (.recordClick true)) 1
        (.recordClick true)).crashed = true
    ∧ step supAll initialState 0 (.recordClick false)
        = { initialState with
            statusMessage := "Error: Additional permissions needed or mic not found." } := by
  refine ⟨rfl, rfl, rfl, rfl, rfl, rfl, ?_⟩
  decide

/-- C4: from an unpaused recording state, a pause click records the pause
instant `t` as the pause start (present in the spec view of the elapsed
accounting), and the next pause click (resume) at `t2` adds `t2 - t` to the
cumulative paused duration and clears the pause start in the spec view; in
particular pausing and resuming at the same instant `t` leaves the
cumulative paused duration and the net elapsed time at every observation
instant unchanged. -/
theorem c4_pause_resume (sup : String → Bool) (s : AppState) (t t2 : Int)
    (hcr : s.crashed = false) (hpd : s.pauseDisabled = false)
    (hrec : s.isRecording = true) (hp : s.isPaused = false)
    (hmr : s.mediaRecorderSet = true) :
    (step sup s t .pauseClick).pauseStartTime = t
    ∧ currentPauseStart (step sup s t .pauseClick) = some t
    ∧ (step sup (step sup s t .pauseClick) t2 .pauseClick).elapsedPausedTime
        = s.elapsedPausedTime + (t2 - t)
    ∧ currentPauseStart (step sup (step sup s t .pauseClick) t2 .pauseClick) = none
    ∧ (step sup (step sup s t .pauseClick) t .pauseClick).elapsedPausedTime
        = s.elapsedPausedTime
    ∧ ∀ now, netElapsed (step sup (step sup s t .pauseClick) t .pauseClick) now
        = netElapsed s now := by
  unfold step pauseClickHandler drawVisualizer currentPauseStart netElapsed
  simp [hcr, hpd, hrec, hp, hmr]
  constructor
  · split <;> simp
  · constructor
    · split <;> simp
    · constructor
      · split <;> simp
      · intro now
        split <;> simp

/-- Witness for C4 at the concrete recording state, pausing and resuming at
time 5. -/
theorem c4_witness :
    (step supAll sRec 5 .pauseClick).pauseStartTime = 5
    ∧ (step supAll (step supAll sRec 5 .pauseClick) 5 .pauseClick).elapsedPausedTime
        = sRec.elapsedPausedTime
    ∧ netElapsed (step supAll (step supAll sRec 5 .pauseClick) 5 .pauseClick) 9
        = netElapsed sRec 9 := by
  have h := c4_pause_resume supAll sRec 5 5 rfl rfl rfl rfl rfl
  exact ⟨h.1, h.2.2.2.2.1, h.2.2.2.2.2 9⟩

/-- C3: on a clock tick in an unpaused recording state whose net elapsed
time has reached the 60-minute maximum, the session auto-stops: the tick
performs exactly the teardown of a user-initiated stop (`stopRecording` —
recorder stopped, interval cleared, pending frame cancelled, affordances
reset, display surface cleared) plus the distinct auto-stop status message;
no normal elapsed reading is produced (the time display is untouched); the
auto-stop message differs from the finished message a manual stop ends
with; and it fires exactly once — the interval is cleared, so every later
tick is a no-op on the stopped state. -/
theorem c3_autostop (sup : String → Bool) (s : AppState) (now : Int)
    (hcr : s.crashed = false) (hta : s.timerActive = true)
    (hrec : s.isRecording = true) (hp : s.isPaused = false)
    (hmr : s.mediaRecorderSet = true)
    (hmax : MAX_RECORDING_TIME_MS ≤ netElapsed s now) :
    step sup s now .tick
      = { stopRecording s with
          statusMessage := "Recording auto-stopped (60m limit reached)." }
    ∧ (step sup s now .tick).isRecording = false
    ∧ (step sup s now .tick).timerActive = false
    ∧ (step sup s now .tick).vizScheduled = false
    ∧ (step sup s now .tick).recorderStopPending = true
    ∧ (step sup s now .tick).canvasCleared = true
    ∧ (step sup s now .tick).recordDisabled = false
    ∧ (step sup s now .tick).pauseDisabled = true
    ∧ (step sup s now .tick).stopDisabled = true
    ∧ (step sup s now .tick).timeDisplay = s.timeDisplay
    ∧ (step sup s now .tick).statusMessage
        ≠ "Recording finished. Ready to save or reset."
    ∧ ∀ t2, step sup (step sup s now .tick) t2 .tick = step sup s now .tick := by
  unfold netElapsed at hmax
  have key : step sup s now .tick
      = { stopRecording s with
          statusMessage := "Recording auto-stopped (60m limit reached)." } := by
    unfold step updateTimer stopRecording
    simp [hcr, hta, hrec, hp, hmr, hmax]
  refine ⟨key, ?_⟩
  rw [key]
  unfold stopRecording step
  simp [hrec, hmr]

/-- Witness for C3: the recording started at time 0 auto-stops on the tick
at 3600000 ms. -/
theorem c3_witness :
    (step supAll sRec 3600000 .tick).isRecording = false
    ∧ (step supAll sRec 3600000 .tick).timerActive = false
    ∧ (step supAll sRec 3600000 .tick).statusMessage
        ≠ "Recording finished. Ready to save or reset."
    ∧ step supAll (step supAll sRec 3600000 .tick) 3600001 .tick
        = step supAll sRec 3600000 .tick := by
  have h := c3_autostop supAll sRec 3600000 rfl rfl rfl rfl rfl (by decide)
  exact ⟨h.2.1, h.2.2.1, h.2.2.2.2.2.2.2.2.2.2.1, h.2.2.2.2.2.2.2.2.2.2.2 3600001⟩

/-- Handlers other than the record click never run the negotiation. -/
lemma step_negotiationCount (sup : String → Bool) (s : AppState) (t : Int)
    (k : EKind) (hk : ∀ micOk, ¬ k = EKind.recordClick micOk) :
    (step sup s t k).negotiationCount = s.negotiationCount := by
  by_cases hc : s.crashed = true
  · simp [step, hc]
  cases k with
  | recordClick micOk => exact absurd rfl (hk micOk)
  | pauseClick =>
      simp only [step]
      rw [if_neg hc]
      split
      · rfl
      · simp [pauseClickHandler_frame]
  | stopClick =>
      simp only [step]
      rw [if_neg hc]
      split
      · rfl
      · simp [stopRecording_frame]
  | saveClick =>
      simp only [step]
      rw [if_neg hc]
      split
      · rfl
      · simp [saveClickHandler_frame]
  | resetClick =>
      simp only [step]
      rw [if_neg hc]
      split
      · rfl
      · simp [resetApp_frame]
  | tick =>
      simp only [step]
      rw [if_neg hc]
      split
      · simp [updateTimer_frame]
      · rfl
  | vizFrame =>
      simp only [step]
      rw [if_neg hc]
      split
      · simp [drawVisualizer_frame]
      · rfl
  | recorderStop =>
      simp only [step]
      rw [if_neg hc]
      split
      · rfl
      · rfl
  | dataAvailable c =>
      simp only [step]
      rw [if_neg hc]
      split
      · rfl
      · rfl

/-- One run of `setupAudio` performs at most one negotiation. -/
lemma setupAudio_negotiationCount (micOk : Bool) (sup : String → Bool)
    (s : AppState) :
    (setupAudio micOk sup s).2.negotiationCount ≤ s.negotiationCount + 1 := by
  simp only [setupAudio]
  split
  · show s.negotiationCount ≤ s.negotiationCount + 1
    omega
  · cases hg : getSupportedMimeType sup
    · show s.negotiationCount + 1 ≤ s.negotiationCount + 1
      omega
    · show s.negotiationCount + 1 ≤ s.negotiationCount + 1
      omega

/-- The settlement continuation performs at most one negotiation. -/
lemma micContinuation_negotiationCount (micOk : Bool) (sup : String → Bool)
    (t : Int) (s : AppState) :
    (micContinuation micOk sup t s).negotiationCount
      ≤ s.negotiationCount + 1 := by
  unfold micContinuation
  rcases hsa : setupAudio micOk sup s with ⟨ok, s1⟩
  have hs2 : (setupAudio micOk sup s).2 = s1 := by rw [hsa]
  have hb := setupAudio_negotiationCount micOk sup s
  rw [hs2] at hb
  cases ok
  · exact hb
  · rw [(startRecording_frame t s1).2.1]
    exact hb

/-- A record click raises the sum of performed negotiations and
outstanding requests by at most one. -/
lemma recordClickSync_bound (t : Int) (s : AsyncState) (n : Nat)
    (h : s.app.negotiationCount + s.pendingMicRequests ≤ n) :
    (recordClickSync t s).app.negotiationCount
      + (recordClickSync t s).pendingMicRequests ≤ n + 1 := by
  unfold recordClickSync
  (repeat' split) <;>
    first
      | omega
      | (simp [startRecording_frame]; omega)

/-- Arithmetic helper for the non-record synchronous events. -/
lemma rStep_sync_bound (sup : String → Bool) (s : AsyncState) (t : Int)
    (k : EKind) (n : Nat)
    (hcount : (step sup s.app t k).negotiationCount = s.app.negotiationCount)
    (h : s.app.negotiationCount + s.pendingMicRequests ≤ n) :
    (step sup s.app t k).negotiationCount + s.pendingMicRequests ≤ n := by
  omega

/-- One refined step raises the sum of performed negotiations and
outstanding requests by at most the number of record clicks in the
event: only a click can create an outstanding request, and a settlement
trades one outstanding request for at most one negotiation. -/
lemma rStep_negotiation_bound (sup : String → Bool) (s : AsyncState)
    (e : REvent) (n : Nat)
    (h : s.app.negotiationCount + s.pendingMicRequests ≤ n) :
    (rStep sup s e).app.negotiationCount + (rStep sup s e).pendingMicRequests
      ≤ n + countRecordClicks [e] := by
  cases e with
  | click t => exact recordClickSync_bound t s n h
  | micSettled micOk t =>
      show (rStep sup s (.micSettled micOk t)).app.negotiationCount
          + (rStep sup s (.micSettled micOk t)).pendingMicRequests ≤ n
      simp only [rStep]
      split
      · omega
      split
      · omega
      · rename_i hp0
        have hb := micContinuation_negotiationCount micOk sup t s.app
        show (micContinuation micOk sup t s.app).negotiationCount
            + (s.pendingMicRequests - 1) ≤ n
        omega
  | sync t k =>
      cases k
      case recordClick micOk => exact recordClickSync_bound t s n h
      all_goals
        exact rStep_sync_bound sup s t _ n
          (step_negotiationCount sup s.app t _ (by simp)) h

/-- Splitting off the head of a click count. -/
lemma countRecordClicks_cons (e : REvent) (es : List REvent) :
    countRecordClicks (e :: es)
      = countRecordClicks es + countRecordClicks [e] := by
  cases e with
  | click t => rfl
  | micSettled micOk t => rfl
  | sync t k => cases k <;> rfl

/-- Along any refined trace, performed negotiations plus outstanding
requests never exceed the starting sum plus the number of record clicks. -/
lemma rRun_negotiation_bound (sup : String → Bool) (s : AsyncState)
    (es : List REvent) (n : Nat)
    (h : s.app.negotiationCount + s.pendingMicRequests ≤ n) :
    (rRun sup s es).app.negotiationCount
      + (rRun sup s es).pendingMicRequests
      ≤ n + countRecordClicks es := by
  induction es generalizing s n with
  | nil => simpa [rRun, countRecordClicks] using h
  | cons e es ih =>
      rw [rRun, countRecordClicks_cons]
      have hrec := ih (rStep sup s e) (n + countRecordClicks [e])
        (rStep_negotiation_bound sup s e n h)
      omega

/-- Counterexample to C8 as stated: after one record click the record
button is still enabled and `audioContext` is still unset (the handler is
suspended at the `getUserMedia` await and has disabled nothing), so a
second click is deliverable and queues a second setup; when both requests
settle, `getSupportedMimeType` has run twice within one page lifetime —
the encoding is not negotiated at most once. -/
theorem c8_counterexample :
    (rRun supAll asyncInit [.click 0]).app.recordDisabled = false
    ∧ (rRun supAll asyncInit [.click 0]).app.audioContextSet = false
    ∧ (rRun supAll asyncInit [.click 0, .click 1]).pendingMicRequests = 2
    ∧ (rRun supAll asyncInit
        [.click 0, .click 1, .micSettled true 2,
         .micSettled true 3]).app.negotiationCount = 2 :=
  ⟨rfl, rfl, rfl, rfl⟩

/-- C8 as amended: once the capture context exists it is reused — a record
click then performs no negotiation, leaves the negotiated MIME type and
file extension unchanged, and queues no microphone request — and every
negotiation is paid for by a distinct record click: along any refined
trace from the initial state, the number of negotiations performed never
exceeds the number of record clicks delivered.  (The original "at most
once per page lifetime" fails exactly for clicks that overlap an earlier
activation's `getUserMedia` await; the capture context itself is never
torn down anywhere in the script.) -/
theorem c8_negotiate_per_click (sup : String → Bool) :
    (∀ (s : AsyncState) (t : Int), s.app.audioContextSet = true →
      (recordClickSync t s).app.negotiationCount = s.app.negotiationCount
      ∧ (recordClickSync t s).app.selectedMimeType = s.app.selectedMimeType
      ∧ (recordClickSync t s).app.selectedExtension = s.app.selectedExtension
      ∧ (recordClickSync t s).pendingMicRequests = s.pendingMicRequests)
    ∧ ∀ es : List REvent,
        (rRun sup asyncInit es).app.negotiationCount ≤ countRecordClicks es := by
  constructor
  · intro s t hctx
    unfold recordClickSync
    (repeat' split) <;> simp_all [startRecording_frame]
  · intro es
    have h := rRun_negotiation_bound sup asyncInit es 0
      (by simp [asyncInit, initialState])
    omega

/-- Witness for C8 (amended): on the concrete state whose context exists
a further click negotiates nothing and keeps the MIME choice, and the
one-click trace that built it stays within its click count. -/
theorem c8_witness :
    (recordClickSync 6 sAsyncReady).app.negotiationCount
        = sAsyncReady.app.negotiationCount
    ∧ (recordClickSync 6 sAsyncReady).app.selectedMimeType
        = sAsyncReady.app.selectedMimeType
    ∧ (rRun supAll asyncInit
        [.click 0, .micSettled true 0]).app.negotiationCount
        ≤ countRecordClicks [.click 0, .micSettled true 0] := by
  have h := c8_negotiate_per_click supAll
  have ha := h.1 sAsyncReady 6 (by decide)
  exact ⟨ha.1, ha.2.1, h.2 [.click 0, .micSettled true 0]⟩

/-- The timing invariant only strengthens as time advances. -/
lemma clockInv_mono (s : AppState) (t t2 : Int) (h : ClockInv s t) (htt : t ≤ t2) :
    ClockInv s t2 := by
  obtain ⟨h1, h2, h3, h4⟩ := h
  exact ⟨h1, h2, fun ha hb => le_trans (h3 ha hb) htt,
    fun ha hb => ⟨(h4 ha hb).1, le_trans (h4 ha hb).2 htt⟩⟩

/-- The initial state satisfies the timing invariant at every instant. -/
lemma clockInv_initial (t : Int) : ClockInv initialState t :=
  ⟨fun hh => by simp [initialState] at hh, le_refl 0,
   fun hh _ => by simp [initialState] at hh,
   fun hh _ => by simp [initialState] at hh⟩

/-- `drawVisualizer` preserves the timing invariant. -/
lemma clockInv_drawVisualizer (s : AppState) (t : Int) (h : ClockInv s t) :
    ClockInv (drawVisualizer s) t := by
  have hf := drawVisualizer_frame s
  unfold ClockInv
  simp only [hf]
  exact h

/-- `stopRecording` preserves the timing invariant. -/
lemma clockInv_stopRecording (s : AppState) (t : Int) (h : ClockInv s t) :
    ClockInv (stopRecording s) t := by
  obtain ⟨h1, h2, h3, h4⟩ := h
  unfold stopRecording
  split
  · exact ⟨h1, h2, h3, h4⟩
  split
  · exact ⟨h1, h2, h3, h4⟩
  · exact ⟨fun hh => by simp at hh, h2, fun hh _ => by simp at hh,
      fun hh _ => by simp at hh⟩

/-- `updateTimer`, invoked at the current instant, preserves the timing
invariant. -/
lemma clockInv_updateTimer (now : Int) (s : AppState) (h : ClockInv s now) :
    ClockInv (updateTimer now s) now := by
  simp only [updateTimer]
  split
  · exact h
  split
  · have hst := clockInv_stopRecording s now h
    split
    · exact hst
    · exact hst
  · exact h

/-- `startRecording`, invoked at the current instant, yields a state
satisfying the timing invariant. -/
lemma clockInv_startRecording (t : Int) (s1 : AppState) (h : ClockInv s1 t) :
    ClockInv (startRecording t s1) t := by
  simp only [startRecording]
  split
  · exact h
  · apply clockInv_drawVisualizer
    exact ⟨fun _ => rfl, le_refl 0, fun _ _ => by simp, fun _ hh => by simp at hh⟩

/-- The pause/resume handler, invoked at the current instant, preserves the
timing invariant. -/
lemma clockInv_pauseClickHandler (t : Int) (s : AppState) (h : ClockInv s t) :
    ClockInv (pauseClickHandler t s) t := by
  obtain ⟨h1, h2, h3, h4⟩ := h
  simp only [pauseClickHandler]
  split
  · exact ⟨h1, h2, h3, h4⟩
  rename_i hrec
  rw [Bool.not_eq_false] at hrec
  split
  · rename_i hp
    split
    · exact ⟨h1, h2, h3, h4⟩
    obtain ⟨hp1, hp2⟩ := h4 hrec hp
    apply clockInv_drawVisualizer
    refine ⟨h1, ?_, ?_, ?_⟩
    · show 0 ≤ s.elapsedPausedTime + (t - s.pauseStartTime)
      omega
    · intro _ _
      show s.startTime + (s.elapsedPausedTime + (t - s.pauseStartTime)) ≤ t
      omega
    · intro _ hh
      simp at hh
  · rename_i hp
    rw [Bool.not_eq_true] at hp
    split
    · exact ⟨h1, h2, h3, h4⟩
    refine ⟨h1, h2, ?_, ?_⟩
    · intro _ hh
      simp at hh
    · intro _ _
      exact ⟨h3 hrec hp, le_refl t⟩

/-- `resetApp` preserves the timing invariant. -/
lemma clockInv_resetApp (s : AppState) (t : Int) (h : ClockInv s t) :
    ClockInv (resetApp s) t := by
  obtain ⟨h1, h2, h3, h4⟩ := h
  have hs1 : ClockInv ({ s with
      chunks := []
      elapsedPausedTime := 0
      timeDisplay := "00:00"
      statusMessage := "Ready to record"
      saveDisabled := true
      resetDisabled := true } : AppState) t := by
    refine ⟨h1, le_refl 0, ?_, ?_⟩
    · intro ha hb
      show s.startTime + 0 ≤ t
      have := h3 ha hb
      omega
    · intro ha hb
      obtain ⟨hh1, hh2⟩ := h4 ha hb
      refine ⟨?_, hh2⟩
      show s.startTime + 0 ≤ s.pauseStartTime
      omega
  simp only [resetApp]
  (repeat' split) <;>
    first
      | exact clockInv_stopRecording _ t hs1
      | exact hs1

/-- Every event-loop step preserves the timing invariant, moving the time
bound from the previous instant to the delivery instant. -/
lemma clockInv_step (sup : String → Bool) (s : AppState) (t t2 : Int) (k : EKind)
    (h : ClockInv s t) (htt : t ≤ t2) : ClockInv (step sup s t2 k) t2 := by
  have h2 := clockInv_mono s t t2 h htt
  by_cases hc : s.crashed = true
  · simp only [step, hc, if_true]
    exact h2
  cases k with
  | recordClick micOk =>
      simp only [step]
      rw [if_neg hc]
      split
      · exact h2
      simp only [recordClickHandler]
      split
      · exact h2
      split
      · rcases hsa : setupAudio micOk sup s with ⟨ok, s1⟩
        have h1 : ClockInv s1 t2 := by
          have hs2 : (setupAudio micOk sup s).2 = s1 := by rw [hsa]
          have hf := setupAudio_frame micOk sup s
          rw [hs2] at hf
          unfold ClockInv
          simp only [hf]
          exact h2
        cases ok
        · exact h1
        · exact clockInv_startRecording t2 s1 h1
      · exact clockInv_startRecording t2 s h2
  | pauseClick =>
      simp only [step]
      rw [if_neg hc]
      split
      · exact h2
      · exact clockInv_pauseClickHandler t2 s h2
  | stopClick =>
      simp only [step]
      rw [if_neg hc]
      split
      · exact h2
      · exact clockInv_stopRecording s t2 h2
  | saveClick =>
      simp only [step]
      rw [if_neg hc]
      split
      · exact h2
      simp only [saveClickHandler]
      split
      · exact h2
      · exact h2
  | resetClick =>
      simp only [step]
      rw [if_neg hc]
      split
      · exact h2
      · exact clockInv_resetApp s t2 h2
  | tick =>
      simp only [step]
      rw [if_neg hc]
      split
      · exact clockInv_updateTimer t2 s h2
      · exact h2
  | vizFrame =>
      simp only [step]
      rw [if_neg hc]
      split
      · exact clockInv_drawVisualizer _ t2 h2
      · exact h2
  | recorderStop =>
      simp only [step]
      rw [if_neg hc]
      split
      · exact h2
      · exact h2
  | dataAvailable c =>
      simp only [step]
      rw [if_neg hc]
      split
      · exact h2
      · exact h2

/-- The timing invariant holds at the final instant of every chronological
trace. -/
lemma clockInv_run (sup : String → Bool) (s : AppState) (t : Int)
    (es : List TEvent) (h : ClockInv s t) (hc : chrono t es = true) :
    ClockInv (run sup s es) (endTime t es) := by
  induction es generalizing s t with
  | nil => exact h
  | cons e es ih =>
      rw [run, endTime]
      simp only [chrono, Bool.and_eq_true, decide_eq_true_eq] at hc
      exact ih (step sup s e.t e.k) e.t (clockInv_step sup s t e.t e.k h hc.1) hc.2

/-- The observable net elapsed value is monotone in the observation time. -/
lemma obs_time_mono (s : AppState) (t t2 : Int) (htt : t ≤ t2) :
    obsElapsed s t ≤ obsElapsed s t2 := by
  unfold obsElapsed
  split <;> omega

/-- The observable net elapsed value only depends on the four elapsed
accounting fields. -/
lemma obsElapsed_congr (s s2 : AppState) (x : Int)
    (h1 : s2.isPaused = s.isPaused) (h2 : s2.pauseStartTime = s.pauseStartTime)
    (h3 : s2.startTime = s.startTime)
    (h4 : s2.elapsedPausedTime = s.elapsedPausedTime) :
    obsElapsed s2 x = obsElapsed s x := by
  unfold obsElapsed
  rw [h1, h2, h3, h4]

/-- Combination of the two previous lemmas: advancing time into a state
with the same elapsed accounting never decreases the observable value. -/
lemma obs_le_of_eq (s s2 : AppState) (t t2 : Int) (htt : t ≤ t2)
    (h1 : s2.isPaused = s.isPaused) (h2 : s2.pauseStartTime = s.pauseStartTime)
    (h3 : s2.startTime = s.startTime)
    (h4 : s2.elapsedPausedTime = s.elapsedPausedTime) :
    obsElapsed s t ≤ obsElapsed s2 t2 := by
  have hm := obs_time_mono s t t2 htt
  rw [← obsElapsed_congr s s2 t2 h1 h2 h3 h4] at hm
  exact hm

/-- `drawVisualizer` does not change the observable net elapsed value. -/
lemma obsElapsed_drawVisualizer (s : AppState) (x : Int) :
    obsElapsed (drawVisualizer s) x = obsElapsed s x := by
  have hf := drawVisualizer_frame s
  exact obsElapsed_congr s _ x hf.2.2.1 hf.2.2.2.2.2.1 hf.2.2.2.1 hf.2.2.2.2.1

/-- Core step property behind the monotonicity of net elapsed time: a step
taken from a recording state either ends the recording or does not decrease
the observable net elapsed value (in particular a pause/resume pair leaves
it unchanged). -/
lemma obs_step (sup : String → Bool) (s : AppState) (t t2 : Int) (k : EKind)
    (h : ClockInv s t2) (htt : t ≤ t2) (hr : s.isRecording = true) :
    (step sup s t2 k).isRecording = false
    ∨ obsElapsed s t ≤ obsElapsed (step sup s t2 k) t2 := by
  obtain ⟨g1, g2, g3, g4⟩ := h
  by_cases hc : s.crashed = true
  · right
    simp only [step, hc, if_true]
    exact obs_time_mono s t t2 htt
  cases k with
  | recordClick micOk =>
      right
      have hid : step sup s t2 (.recordClick micOk) = s := by
        simp [step, hc, recordClickHandler, hr]
      rw [hid]
      exact obs_time_mono s t t2 htt
  | pauseClick =>
      right
      simp only [step]
      rw [if_neg hc]
      split
      · exact obs_time_mono s t t2 htt
      simp only [pauseClickHandler]
      rw [if_neg (by simp [hr])]
      split
      · rename_i hp
        split
        · exact obs_le_of_eq s _ t t2 htt rfl rfl rfl rfl
        · rw [obsElapsed_drawVisualizer]
          unfold obsElapsed
          rw [if_pos hp, if_neg (by simp)]
          show s.pauseStartTime - s.startTime - s.elapsedPausedTime
            ≤ t2 - s.startTime - (s.elapsedPausedTime + (t2 - s.pauseStartTime))
          omega
      · rename_i hp
        rw [Bool.not_eq_true] at hp
        split
        · exact obs_le_of_eq s _ t t2 htt rfl rfl rfl rfl
        · unfold obsElapsed
          rw [if_neg (by simp [hp]), if_pos (by simp)]
          show t - s.startTime - s.elapsedPausedTime
            ≤ t2 - s.startTime - s.elapsedPausedTime
          omega
  | stopClick =>
      simp only [step]
      rw [if_neg hc]
      split
      · right
        exact obs_time_mono s t t2 htt
      simp only [stopRecording]
      rw [if_neg (by simp [hr])]
      split
      · right
        exact obs_le_of_eq s _ t t2 htt rfl rfl rfl rfl
      · left
        simp
  | saveClick =>
      right
      simp only [step]
      rw [if_neg hc]
      split
      · exact obs_time_mono s t t2 htt
      simp only [saveClickHandler]
      split
      · exact obs_time_mono s t t2 htt
      · exact obs_le_of_eq s _ t t2 htt rfl rfl rfl rfl
  | resetClick =>
      simp only [step]
      rw [if_neg hc]
      split
      · right
        exact obs_time_mono s t t2 htt
      by_cases hm : s.mediaRecorderSet = false
      · right
        simp only [resetApp, stopRecording]
        simp [hr, hm]
        unfold obsElapsed
        by_cases hp : s.isPaused = true
        · simp [hp]
          omega
        · rw [Bool.not_eq_true] at hp
          simp [hp]
          omega
      · left
        rw [Bool.not_eq_false] at hm
        simp [resetApp, stopRecording, hr, hm, apply_ite]
  | tick =>
      simp only [step]
      rw [if_neg hc]
      split
      · simp only [updateTimer]
        split
        · right
          exact obs_time_mono s t t2 htt
        split
        · by_cases hm : s.mediaRecorderSet = false
          · right
            simp [stopRecording, hr, hm]
            unfold obsElapsed
            by_cases hp : s.isPaused = true
            · simp [hp]
            · rw [Bool.not_eq_true] at hp
              simp [hp]
              omega
          · left
            rw [Bool.not_eq_false] at hm
            simp [stopRecording, hr, hm, apply_ite]
        · right
          exact obs_le_of_eq s _ t t2 htt rfl rfl rfl rfl
      · right
        exact obs_time_mono s t t2 htt
  | vizFrame =>
      right
      simp only [step]
      rw [if_neg hc]
      split
      · rw [obsElapsed_drawVisualizer]
        exact obs_le_of_eq s _ t t2 htt rfl rfl rfl rfl
      · exact obs_time_mono s t t2 htt
  | recorderStop =>
      right
      simp only [step]
      rw [if_neg hc]
      split
      · exact obs_le_of_eq s _ t t2 htt rfl rfl rfl rfl
      · exact obs_time_mono s t t2 htt
  | dataAvailable c =>
      right
      simp only [step]
      rw [if_neg hc]
      split
      · exact obs_le_of_eq s _ t t2 htt rfl rfl rfl rfl
      · exact obs_time_mono s t t2 htt

/-- Along any chronological trace during which the state keeps recording,
the observable net elapsed value never decreases. -/
lemma obs_run (sup : String → Bool) (s : AppState) (t : Int) (es : List TEvent)
    (h : ClockInv s t) (hc : chrono t es = true) (hr : s.isRecording = true)
    (hst : staysRecording sup s es = true) :
    obsElapsed s t ≤ obsElapsed (run sup s es) (endTime t es) := by
  induction es generalizing s t with
  | nil => exact le_refl _
  | cons e es ih =>
      rw [run, endTime]
      simp only [chrono, Bool.and_eq_true, decide_eq_true_eq] at hc
      simp only [staysRecording, Bool.and_eq_true] at hst
      have hstep := obs_step sup s t e.t e.k
        (clockInv_mono s t e.t h hc.1) hc.1 hr
      rcases hstep with hleft | hright
      · rw [hleft] at hst
        exact absurd hst.1 (by simp)
      · exact le_trans hright
          (ih (step sup s e.t e.k) e.t
            (clockInv_step sup s t e.t e.k h hc.1) hc.2 hst.1 hst.2)

/-- C5: net elapsed time.  (1) `netElapsed` is by definition
`now - startTime - elapsedPausedTime`, and (2) on a live, unpaused,
uncrashed tick below the maximum the tick renders exactly this quantity.
(3) For every reachable state that is in a session (`isRecording` covers
the Recording and Paused states) and every observation instant not earlier
than the last event, net elapsed time is non-negative.  (4) Along any
chronological continuation during which the state keeps recording, the net
elapsed value observed in unpaused (`Recording`) states is monotonically
non-decreasing — in particular it never decreases across pause/resume
pairs. -/
theorem c5_net_elapsed (sup : String → Bool) (t0 : Int) (es : List TEvent)
    (s : AppState) (hs : s = run sup initialState es) (hc : chrono t0 es = true) :
    (∀ now, netElapsed s now = now - s.startTime - s.elapsedPausedTime)
    ∧ (∀ now, s.crashed = false → s.timerActive = true → s.isPaused = false →
        netElapsed s now < MAX_RECORDING_TIME_MS →
        (step sup s now .tick).timeDisplay = fmtClock (netElapsed s now))
    ∧ (s.isRecording = true → ∀ now, endTime t0 es ≤ now → 0 ≤ netElapsed s now)
    ∧ (∀ es2, s.isRecording = true → s.isPaused = false →
        chrono (endTime t0 es) es2 = true →
        staysRecording sup s es2 = true →
        (run sup s es2).isPaused = false →
        netElapsed s (endTime t0 es)
          ≤ netElapsed (run sup s es2) (endTime (endTime t0 es) es2)) := by
  have hInv : ClockInv s (endTime t0 es) := by
    rw [hs]
    exact clockInv_run sup initialState t0 es (clockInv_initial t0) hc
  refine ⟨fun now => rfl, ?_, ?_, ?_⟩
  · intro now hcr hta hp hlt
    unfold netElapsed at hlt
    have hnot : ¬ MAX_RECORDING_TIME_MS ≤ now - s.startTime - s.elapsedPausedTime :=
      not_le.mpr hlt
    simp [step, hcr, hta, updateTimer, hp, hnot, netElapsed]
  · intro hrec now hnow
    obtain ⟨g1, g2, g3, g4⟩ := hInv
    unfold netElapsed
    by_cases hp : s.isPaused = true
    · have := g4 hrec hp
      omega
    · rw [Bool.not_eq_true] at hp
      have := g3 hrec hp
      omega
  · intro es2 hrec hp hc2 hst hp2
    have hobs := obs_run sup s (endTime t0 es) es2 hInv hc2 hrec hst
    unfold obsElapsed at hobs
    rw [if_neg (by simp [hp]), if_neg (by simp [hp2])] at hobs
    exact hobs

/-- Witness for C5 at the concrete recording state (started at 0): net
elapsed at instant 7 is non-negative, and across the tick at 3 the net
elapsed reading does not decrease. -/
theorem c5_witness :
    0 ≤ netElapsed sRec 7
    ∧ netElapsed sRec 0 ≤ netElapsed (run supAll sRec [⟨3, .tick⟩]) 3 := by
  have h := c5_net_elapsed supAll 0 [⟨0, .recordClick true⟩] sRec rfl (by decide)
  exact ⟨h.2.2.1 rfl 7 (by decide),
    h.2.2.2 [⟨3, .tick⟩] rfl rfl (by decide) (by decide) (by decide)⟩

/-- C10: while paused the timer interval stays scheduled but every tick is a
pure no-op — `updateTimer` returns the state unchanged, so neither the
display nor any session state changes and the auto-stop comparison on the
net elapsed time is never reached; a pause click never touches the
interval; and a tick that changes anything at all (in particular one that
auto-stops) can only occur in an unpaused recording state. -/
theorem c10_paused_tick_noop (sup : String → Bool) (t0 : Int) (es : List TEvent)
    (s : AppState) (hs : s = run sup initialState es) (hc : chrono t0 es = true) :
    (∀ now, s.isPaused = true → updateTimer now s = s)
    ∧ (∀ t2, (step sup s t2 .pauseClick).timerActive = s.timerActive)
    ∧ (∀ now, ¬ step sup s now .tick = s →
        s.isRecording = true ∧ s.isPaused = false) := by
  have hInv : ClockInv s (endTime t0 es) := by
    rw [hs]
    exact clockInv_run sup initialState t0 es (clockInv_initial t0) hc
  refine ⟨?_, ?_, ?_⟩
  · intro now hp
    simp [updateTimer, hp]
  · intro t2
    by_cases hcr : s.crashed = true
    · simp [step, hcr]
    simp only [step]
    rw [if_neg hcr]
    split
    · rfl
    · exact (pauseClickHandler_frame t2 s).1
  · intro now hne
    by_cases hcr : s.crashed = true
    · exact absurd (by simp [step, hcr]) hne
    by_cases hta : s.timerActive = true
    · refine ⟨hInv.1 hta, ?_⟩
      by_cases hp : s.isPaused = true
      · exact absurd (by simp [step, hcr, hta, updateTimer, hp]) hne
      · rw [Bool.not_eq_true] at hp
        exact hp
    · exact absurd (by simp [step, hcr, hta]) hne

/-- Witness for C10 at the concrete paused state (record at 0, pause at 2):
the tick at 5 is a no-op and the pause click at 6 leaves the interval
scheduled. -/
theorem c10_witness :
    updateTimer 5 sPausedState = sPausedState
    ∧ (step supAll sPausedState 6 .pauseClick).timerActive
        = sPausedState.timerActive := by
  have h := c10_paused_tick_noop supAll 0
    [⟨0, .recordClick true⟩, ⟨2, .pauseClick⟩] sPausedState rfl (by decide)
  exact ⟨h.1 5 rfl, h.2.1 6⟩

end SonicCapture
